import Mathlib

/-!
Shallow embedding of the multi-tenant recruiting (ATS) backend:
pipeline-stage registry, candidate status transitions with activity audit,
email-template preview, tenant-scoped access checks and registration.

Rows of each database table are modelled as Lean structures kept in
insertion-ordered lists; SQLAlchemy `.first()` becomes `List.find?`,
`db.add` becomes an append, in-place row mutation becomes replacing the
first matching element.  Auto-increment primary keys are supplied as
explicit fresh-id parameters.  HTTP errors are modelled by an explicit
exception value carried in `Except`.
-/

namespace HRPlatform

/-- An HTTP error response: models fastapi HTTPException(status_code, detail). -/
structure HTTPError where
  status_code : Nat
  detail : String
deriving DecidableEq, Repr

/-- models.Company (fields used by the embedded operations). -/
structure Company where
  id : Nat
  name : String
deriving DecidableEq, Repr

/-- models.User. -/
structure User where
  id : Nat
  email : String
  hashed_password : String
  first_name : String
  last_name : String
  role : String
  is_active : Bool
  company_id : Nat
deriving DecidableEq, Repr

/-- models.Vacancy (fields used by the embedded operations). -/
structure Vacancy where
  id : Nat
  title : String
  description : String
  requirements : String
  status : String
  company_id : Nat
deriving DecidableEq, Repr

/-- models.Candidate.  `ai_score` is a JSON number; the embedded code paths
only ever store integer scores (AI payload value, or the fallbacks 10 / 0),
so it is modelled as `Int`. -/
structure Candidate where
  id : Nat
  first_name : String
  last_name : String
  email : String
  phone : Option String
  telegram_id : Option String
  resume_text : String
  ai_score : Int
  ai_summary : String
  status : String
  source : String
  vacancy_id : Nat
  company_id : Nat
deriving DecidableEq, Repr

/-- models.CandidateActivity (append-only audit row). -/
structure CandidateActivity where
  candidate_id : Nat
  action : String
  description : String
deriving DecidableEq, Repr

/-- models.PipelineStage. -/
structure PipelineStage where
  id : Nat
  company_id : Nat
  key : String
  label : String
  color : String
  order : Nat
  is_active : Bool
  is_final : Bool
deriving DecidableEq, Repr

/-- models.EmailTemplate (fields used by the embedded operations). -/
structure EmailTemplate where
  id : Nat
  company_id : Nat
  type : String
  name : String
  subject : String
  body : String
  is_active : Bool
deriving DecidableEq, Repr

/-- The durable store: each table as an insertion-ordered list of rows. -/
structure DB where
  companies : List Company
  users : List User
  vacancies : List Vacancy
  candidates : List Candidate
  activities : List CandidateActivity
  stages : List PipelineStage
  templates : List EmailTemplate
deriving DecidableEq, Repr

/-! ### auth/dependencies.py -/

/-- auth/dependencies.py `check_company_access(obj, current_user, obj_name)`:
404 when the object is absent, 403 when it belongs to another company. -/
def check_company_access {α : Type} (obj : Option α) (company_id : α → Nat)
    (current_user : User) (obj_name : String) : Except HTTPError α :=
  match obj with
  | none => .error ⟨404, obj_name ++ " не найден"⟩
  | some o =>
    if company_id o ≠ current_user.company_id then
      .error ⟨403, "Нет доступа к этому объекту"⟩
    else
      .ok o

/-! ### auth/router.py -/

/-- Request body of POST /auth/register. -/
structure UserRegister where
  email : String
  password : String
  first_name : String
  last_name : String
  company_name : String
deriving DecidableEq, Repr

/-- auth/router.py `register`: rejects duplicate e-mails, finds or creates the
company by name, grants `admin` to the first user of the company and
`recruiter` to everyone after, then inserts the user.  Password hashing and
token minting are external; the hash function and fresh primary keys are
parameters.  Returns the created user, its company and the new store. -/
def register (data : UserRegister) (get_password_hash : String → String)
    (newCompanyId newUserId : Nat) (db : DB) :
    Except HTTPError (User × Company × DB) :=
  if (db.users.find? (fun u => u.email == data.email)).isSome then
    .error ⟨400, "Пользователь с таким email уже существует"⟩
  else
    let found := db.companies.find? (fun c => c.name == data.company_name)
    let company := found.getD ⟨newCompanyId, data.company_name⟩
    let db1 : DB :=
      match found with
      | some _ => db
      | none => { db with companies := db.companies ++ [company] }
    let existing_users_count :=
      (db1.users.filter (fun u => u.company_id == company.id)).length
    let role := if existing_users_count == 0 then "admin" else "recruiter"
    let user : User :=
      { id := newUserId
        email := data.email
        hashed_password := get_password_hash data.password
        first_name := data.first_name
        last_name := data.last_name
        role := role
        is_active := true
        company_id := company.id }
    .ok (user, company, { db1 with users := db1.users ++ [user] })

/-! ### ai.py -/

/-- The relevant keys of the dict parsed from the AI provider's JSON answer;
`none` models an absent key. -/
structure AIResult where
  score : Option Int
  summary : Option String
deriving DecidableEq, Repr

/-- ai.py `analyze_resume_with_gpt`: the whole upstream interaction
(request, response, markdown stripping, `json.loads`) is a parameter that
either yields a parsed payload or raises.  Any raised exception is caught
and replaced by the hard-coded fallback payload. -/
def analyze_resume_with_gpt (upstream : Except String AIResult) : AIResult :=
  match upstream with
  | .ok parsed => parsed
  | .error e => { score := some 10, summary := some ("Ошибка AI анализа: " ++ e) }

/-! ### main.py candidate endpoints -/

/-- Request body of POST /candidates/apply. -/
structure CandidateApply where
  vacancy_id : Nat
  first_name : String
  last_name : String
  username : String
  resume_text : String
deriving DecidableEq, Repr

/-- main.py `apply_candidate`: 404 when the vacancy is unknown, otherwise
scores the resume (with fallback on AI failure), inserts the candidate at
status "new" and appends one `apply` activity. -/
def apply_candidate (application : CandidateApply)
    (upstream : Except String AIResult) (newId : Nat) (db : DB) :
    Except HTTPError (Candidate × DB) :=
  match db.vacancies.find? (fun v => v.id == application.vacancy_id) with
  | none => .error ⟨404, "Вакансия не найдена"⟩
  | some vacancy =>
    let ai := analyze_resume_with_gpt upstream
    let db_candidate : Candidate :=
      { id := newId
        first_name := application.first_name
        last_name := application.last_name
        email := "tg_user@example.com"
        phone := none
        telegram_id := some application.username
        resume_text := application.resume_text
        ai_score := ai.score.getD 0
        ai_summary := ai.summary.getD "Ошибка анализа"
        status := "new"
        source := "telegram"
        vacancy_id := application.vacancy_id
        company_id := vacancy.company_id }
    let activity : CandidateActivity :=
      ⟨newId, "apply", "Кандидат откликнулся через Telegram"⟩
    .ok (db_candidate,
      { db with candidates := db.candidates ++ [db_candidate]
                activities := db.activities ++ [activity] })

/-- In-place ORM mutation of the row found by `.first()`: set the status of
the first candidate whose id matches. -/
def setStatusFirst (cid : Nat) (newStatus : String) :
    List Candidate → List Candidate
  | [] => []
  | c :: rest =>
    if c.id == cid then { c with status := newStatus } :: rest
    else c :: setStatusFirst cid newStatus rest

/-- main.py `update_candidate_status`: looks the candidate up by id, runs the
tenant access check, then — only when the status actually changes — writes
the new status, appends one `status_change` activity embedding old and new,
and (for the interview stage, a known chat handle and a configured bot
token) emits one best-effort notification.  Returns the candidate as
rendered in the response, the new store and the notifications attempted. -/
def update_candidate_status (candidate_id : Nat) (newStatus : String)
    (current_user : User) (bot_token : Option String) (db : DB) :
    Except HTTPError (Candidate × DB × List String) := do
  let candidate ← check_company_access
    (db.candidates.find? (fun c => c.id == candidate_id))
    (fun c => c.company_id) current_user "Кандидат"
  if candidate.status ≠ newStatus then
    let activity : CandidateActivity :=
      ⟨candidate.id, "status_change",
        "Статус изменен: " ++ candidate.status ++ " -> " ++ newStatus⟩
    let notes :=
      if newStatus == "interview" && candidate.telegram_id.isSome
          && bot_token.isSome then
        ["🎉 " ++ candidate.first_name ++ ", вас пригласили на интервью!"]
      else []
    .ok ({ candidate with status := newStatus },
      { db with candidates := setStatusFirst candidate_id newStatus db.candidates
                activities := db.activities ++ [activity] },
      notes)
  else
    .ok (candidate, db, [])

/-! ### routers/settings.py — pipeline stages -/

/-- The six default stages of settings.py `create_default_pipeline_stages`,
in the order they are inserted; fresh primary keys start at `baseId`. -/
def default_pipeline_stages (company_id baseId : Nat) : List PipelineStage :=
  [ ⟨baseId, company_id, "new", "Новый", "#3B82F6", 0, true, false⟩,
    ⟨baseId + 1, company_id, "screening", "Скрининг", "#8B5CF6", 1, true, false⟩,
    ⟨baseId + 2, company_id, "interview", "Интервью", "#F59E0B", 2, true, false⟩,
    ⟨baseId + 3, company_id, "offer", "Оффер", "#F97316", 3, true, false⟩,
    ⟨baseId + 4, company_id, "hired", "Нанят", "#10B981", 4, true, true⟩,
    ⟨baseId + 5, company_id, "rejected", "Отказ", "#EF4444", 5, true, true⟩ ]

/-- settings.py `create_default_pipeline_stages`: inserts the six defaults
and returns them together with the new store. -/
def create_default_pipeline_stages (company_id baseId : Nat) (db : DB) :
    List PipelineStage × DB :=
  let stages := default_pipeline_stages company_id baseId
  (stages, { db with stages := db.stages ++ stages })

/-- Stable insertion into a list sorted by ascending `order`. -/
def insertByOrder (s : PipelineStage) : List PipelineStage → List PipelineStage
  | [] => [s]
  | t :: rest =>
    if s.order ≤ t.order then s :: t :: rest else t :: insertByOrder s rest

/-- The `order_by(PipelineStage.order)` ascending sort. -/
def sortByOrder : List PipelineStage → List PipelineStage
  | [] => []
  | s :: rest => insertByOrder s (sortByOrder rest)

/-- settings.py `get_pipeline_stages`: the company's stages sorted by
`order`; when the company has none, lazily provisions the six defaults. -/
def get_pipeline_stages (current_user : User) (baseId : Nat) (db : DB) :
    List PipelineStage × DB :=
  let stages :=
    sortByOrder (db.stages.filter (fun s => s.company_id == current_user.company_id))
  if stages.isEmpty then
    create_default_pipeline_stages current_user.company_id baseId db
  else
    (stages, db)

/-- Request body of POST /settings/pipeline. -/
structure PipelineStageCreate where
  key : String
  label : String
  color : String
  is_final : Bool
deriving DecidableEq, Repr

/-- The maximum of a list of naturals, `none` on the empty list; models the
`.order` of the row produced by `order_by(order.desc()).first()`. -/
def listMax? : List Nat → Option Nat
  | [] => none
  | x :: xs =>
    match listMax? xs with
    | none => some x
    | some m => some (max x m)

/-- settings.py `create_pipeline_stage`: 400 on a duplicate key within the
company, otherwise inserts a stage whose `order` is one more than the
maximal order among the company's non-final stages (0 when there are none). -/
def create_pipeline_stage (data : PipelineStageCreate) (current_user : User)
    (newId : Nat) (db : DB) : Except HTTPError (PipelineStage × DB) :=
  if (db.stages.find? (fun s =>
      s.company_id == current_user.company_id && s.key == data.key)).isSome then
    .error ⟨400, "Этап с ключом \x27" ++ data.key ++ "\x27 уже существует"⟩
  else
    let nonFinalOrders :=
      (db.stages.filter (fun s =>
        s.company_id == current_user.company_id && s.is_final == false)).map
        (fun s => s.order)
    let new_order :=
      match listMax? nonFinalOrders with
      | some m => m + 1
      | none => 0
    let stage : PipelineStage :=
      { id := newId
        company_id := current_user.company_id
        key := data.key
        label := data.label
        color := data.color
        order := new_order
        is_active := true
        is_final := data.is_final }
    .ok (stage, { db with stages := db.stages ++ [stage] })

/-- `db.delete(stage)` on the row found by id within the company: removes
the first matching row. -/
def removeFirstStage (sid c : Nat) : List PipelineStage → List PipelineStage
  | [] => []
  | s :: rest =>
    if s.id == sid && s.company_id == c then rest
    else s :: removeFirstStage sid c rest

/-- settings.py `delete_pipeline_stage`: 404 when the stage is not found in
the caller's company, 400 (invalid operation) on a final stage, 400
(conflict) when candidates of the company still hold the stage's key,
otherwise deletes the stage. -/
def delete_pipeline_stage (stage_id : Nat) (current_user : User) (db : DB) :
    Except HTTPError DB :=
  match db.stages.find? (fun s =>
      s.id == stage_id && s.company_id == current_user.company_id) with
  | none => .error ⟨404, "Этап не найден"⟩
  | some stage =>
    if stage.is_final then
      .error ⟨400, "Нельзя удалить финальный этап"⟩
    else
      let candidates_count :=
        (db.candidates.filter (fun c =>
          c.company_id == current_user.company_id && c.status == stage.key)).length
      if candidates_count > 0 then
        .error ⟨400, "Нельзя удалить: на этапе " ++ toString candidates_count
          ++ " кандидат(ов)"⟩
      else
        .ok { db with
          stages := removeFirstStage stage_id current_user.company_id db.stages }

/-- One iteration of the reorder loop: the query finds the first stage with
the given id inside the company and sets its `order` to the index. -/
def updateFirstStageOrder (sid c v : Nat) :
    List PipelineStage → List PipelineStage
  | [] => []
  | s :: rest =>
    if s.id == sid && s.company_id == c then { s with order := v } :: rest
    else s :: updateFirstStageOrder sid c v rest

/-- The `for index, stage_id in enumerate(data.stage_ids)` loop of
settings.py `reorder_pipeline_stages`, with `idx` the running index. -/
def reorderLoop (c idx : Nat) (ids : List Nat)
    (stages : List PipelineStage) : List PipelineStage :=
  match ids with
  | [] => stages
  | sid :: rest => reorderLoop c (idx + 1) rest (updateFirstStageOrder sid c idx stages)

/-- settings.py `reorder_pipeline_stages`: sets each listed stage's `order`
to its index in the request, silently skipping ids that are unknown or
belong to another company. -/
def reorder_pipeline_stages (stage_ids : List Nat) (current_user : User)
    (db : DB) : DB :=
  { db with stages := reorderLoop current_user.company_id 0 stage_ids db.stages }

/-! ### routers/settings.py — email template preview -/

/-- Boolean test that `pat` is a prefix of `s`. -/
def isPrefixList : List Char → List Char → Bool
  | [], _ => true
  | _ :: _, [] => false
  | p :: ps, c :: cs => p == c && isPrefixList ps cs

/-- Boolean test that `pat` occurs as a contiguous substring of `s`. -/
def occursIn (pat : List Char) : List Char → Bool
  | [] => isPrefixList pat []
  | c :: rest => isPrefixList pat (c :: rest) || occursIn pat rest

/-- Python `str.replace` on character lists, replacing every
non-overlapping occurrence of `pat` left to right.  Recursion is on an
explicit fuel bound; `fuel = s.length` always suffices because each step
consumes at least one character of `s` (the pattern, when matched, is
non-empty at every call site). -/
def replaceFuel (pat repl : List Char) : Nat → List Char → List Char
  | 0, s => s
  | fuel + 1, s =>
    match s with
    | [] => []
    | c :: rest =>
      if isPrefixList pat (c :: rest) then
        repl ++ replaceFuel pat repl fuel (rest.drop (pat.length - 1))
      else
        c :: replaceFuel pat repl fuel rest

/-- Python `str.replace(pat, repl)` on strings (our patterns are non-empty;
an empty pattern is mapped to the identity). -/
def pyReplace (s pat repl : String) : String :=
  match pat.data with
  | [] => s
  | _ :: _ => ⟨replaceFuel pat.data repl.data s.data.length s.data⟩

/-- The fixed preview variables of settings.py `preview_email_template`,
in Python dict insertion order. -/
def preview_test_data (company_name : String) : List (String × String) :=
  [("first_name", "Иван"), ("last_name", "Петров"),
   ("vacancy_title", "Python Developer"), ("company_name", company_name)]

/-- The `for key, value in test_data.items(): s = s.replace(...)` loop:
sequentially replaces each `\x7bkey\x7d` placeholder by its value. -/
def substitute_variables (vars : List (String × String)) (s : String) : String :=
  vars.foldl (fun acc kv => pyReplace acc ("\x7b" ++ kv.1 ++ "\x7d") kv.2) s

/-- The rendered preview returned to the caller. -/
structure PreviewResult where
  subject : String
  body : String
deriving DecidableEq, Repr

/-- settings.py `preview_email_template`: 404 when the template is not found
in the caller's company; otherwise substitutes the fixed test variables into
subject and body.  `company` is the `current_user.company` relationship.
The store is returned unchanged: the endpoint never writes. -/
def preview_email_template (template_id : Nat) (current_user : User)
    (company : Company) (db : DB) : Except HTTPError (PreviewResult × DB) :=
  match db.templates.find? (fun t =>
      t.id == template_id && t.company_id == current_user.company_id) with
  | none => .error ⟨404, "Шаблон не найден"⟩
  | some template =>
    let td := preview_test_data company.name
    .ok ({ subject := substitute_variables td template.subject
           body := substitute_variables td template.body }, db)

/-! ### Specification predicates and concrete fixtures -/

/-- `needle` occurs as a contiguous substring of `hay`. -/
def containsStr (hay needle : String) : Prop :=
  ∃ pre post, hay = pre ++ needle ++ post

/-- The row identity inspected by the reorder queries: (id, company_id). -/
def stageKey (s : PipelineStage) : Nat × Nat := (s.id, s.company_id)

/-- Overwrite a stage's `order` field. -/
def setOrd (v : Nat) (s : PipelineStage) : PipelineStage := { s with order := v }

/-- Position of the first row whose (id, company_id) is (sid, c). -/
def firstPos (sid c : Nat) : List (Nat × Nat) → Option Nat
  | [] => none
  | k :: rest =>
    if k = (sid, c) then some 0 else (firstPos sid c rest).map (· + 1)

/-- The last value the reorder loop writes into position `n` (later
iterations override earlier ones); `idx` is the running index offset and
`shape` the list of row identities, which the loop never changes. -/
def lastWrite (c idx : Nat) (ids : List Nat) (shape : List (Nat × Nat))
    (n : Nat) : Option Nat :=
  match ids with
  | [] => none
  | sid :: rest =>
    match lastWrite c (idx + 1) rest shape n with
    | some v => some v
    | none => if firstPos sid c shape = some n then some idx else none

/-- Fixture: an admin of company 1. -/
def wUser : User := ⟨1, "a@x.io", "hash1", "Анна", "А", "admin", true, 1⟩

/-- Fixture: a candidate of company 1 at status "new" with a chat handle. -/
def wCand : Candidate :=
  ⟨7, "Ivan", "P", "e@x.io", none, some "tg7", "resume", 50, "summary", "new",
    "telegram", 3, 1⟩

/-- Fixture: a candidate belonging to company 2 (foreign to `wUser`). -/
def wCand2 : Candidate :=
  ⟨8, "Olga", "S", "o@x.io", none, none, "resume", 40, "summary", "new",
    "manual", 4, 2⟩

/-- Fixture: a vacancy of company 1. -/
def wVac : Vacancy := ⟨3, "Dev", "Desc", "Reqs", "active", 1⟩

/-- Fixture: an email template of company 1 whose subject mixes a known and
an unknown placeholder. -/
def wTemplate : EmailTemplate :=
  ⟨21, 1, "invitation", "Приглашение",
    "Тема: \x7bfirst_name\x7d \x7bunknown\x7d",
    "Здравствуйте, \x7bfirst_name\x7d! Позиция: \x7bvacancy_title\x7d", true⟩

/-- Fixture: base store for company 1 with one candidate and one template. -/
def wDB : DB :=
  ⟨[⟨1, "Acme"⟩], [wUser], [wVac], [wCand], [], [], [wTemplate]⟩

/-- Fixture: the same store after default-stage provisioning (ids 10..15). -/
def wDBdef : DB := { wDB with stages := default_pipeline_stages 1 10 }

/-- Fixture: the provisioned "hired" stage of `wDBdef`. -/
def wHired : PipelineStage := ⟨14, 1, "hired", "Нанят", "#10B981", 4, true, true⟩

/-! ## Helper lemmas -/

theorem setStatusFirst_find? (cid : Nat) (s : String) :
    ∀ (l : List Candidate) (cand : Candidate),
      l.find? (fun c => c.id == cid) = some cand →
      (setStatusFirst cid s l).find? (fun c => c.id == cid) =
        some { cand with status := s } := by
  intro l
  induction l with
  | nil => intro cand h; simp [List.find?] at h
  | cons c rest ih =>
    intro cand h
    by_cases hc : c.id = cid
    · have hb : (c.id == cid) = true := by simpa using hc
      simp only [List.find?, hb] at h
      obtain rfl : c = cand := by simpa using h
      simp [setStatusFirst, hb, List.find?]
    · have hb : (c.id == cid) = false := by simpa using hc
      simp only [List.find?, hb] at h
      simp only [setStatusFirst, hb, Bool.false_eq_true, if_false, List.find?]
      exact ih cand h

theorem removeFirstStage_split (sid c : Nat) :
    ∀ (l : List PipelineStage) (stage : PipelineStage),
      l.find? (fun s => s.id == sid && s.company_id == c) = some stage →
      ∃ pre post, l = pre ++ stage :: post ∧
        removeFirstStage sid c l = pre ++ post := by
  intro l
  induction l with
  | nil => intro stage h; simp [List.find?] at h
  | cons x rest ih =>
    intro stage h
    by_cases hx : x.id = sid ∧ x.company_id = c
    · simp [List.find?, hx.1, hx.2] at h
      exact ⟨[], rest, by simp [← h], by simp [removeFirstStage, hx.1, hx.2, ← h]⟩
    · have hcond : (x.id == sid && x.company_id == c) = false := by
        simp only [Bool.and_eq_false_iff, beq_eq_false_iff_ne, ne_eq]
        by_cases h1 : x.id = sid
        · exact Or.inr (fun h2 => hx ⟨h1, h2⟩)
        · exact Or.inl h1
      simp only [List.find?, hcond] at h
      obtain ⟨pre, post, hsplit, hrem⟩ := ih stage h
      exact ⟨x :: pre, post, by simp [hsplit],
        by simp [removeFirstStage, hcond, hrem]⟩

/-! ## Claim theorems -/

/-- Claim C1: for every candidate and every status key `s` different from the
candidate's current status, `update_candidate_status` updates the candidate's
status to `s` and appends exactly one activity record with
`action = "status_change"` whose description contains both the old and the
new status value. -/
theorem C1_change_status_audited (db : DB) (cu : User) (cid : Nat)
    (s : String) (tok : Option String) (cand : Candidate)
    (hfind : db.candidates.find? (fun c => c.id == cid) = some cand)
    (hcomp : cand.company_id = cu.company_id)
    (hne : cand.status ≠ s) :
    ∃ db' notes,
      update_candidate_status cid s cu tok db =
        .ok ({ cand with status := s }, db', notes) ∧
      db'.activities = db.activities ++
        [⟨cand.id, "status_change",
          "Статус изменен: " ++ cand.status ++ " -> " ++ s⟩] ∧
      db'.candidates.find? (fun c => c.id == cid) =
        some { cand with status := s } ∧
      containsStr ("Статус изменен: " ++ cand.status ++ " -> " ++ s) cand.status ∧
      containsStr ("Статус изменен: " ++ cand.status ++ " -> " ++ s) s := by
  have hacc : check_company_access (db.candidates.find? (fun c => c.id == cid))
      (fun c => c.company_id) cu "Кандидат" = .ok cand := by
    rw [hfind]; simp [check_company_access, hcomp]
  refine ⟨{ db with
      candidates := setStatusFirst cid s db.candidates
      activities := db.activities ++
        [⟨cand.id, "status_change",
          "Статус изменен: " ++ cand.status ++ " -> " ++ s⟩] },
    (if s == "interview" && cand.telegram_id.isSome && tok.isSome then
      ["🎉 " ++ cand.first_name ++ ", вас пригласили на интервью!"]
    else []),
    ?_, rfl, setStatusFirst_find? cid s db.candidates cand hfind,
    ⟨"Статус изменен: ", " -> " ++ s, by rw [String.append_assoc]⟩,
    ⟨"Статус изменен: " ++ cand.status ++ " -> ", "",
      by rw [String.append_empty]⟩⟩
  unfold update_candidate_status
  rw [hacc]
  simp only [bind, Except.bind]
  simp [hne]

/-- Witness for C1 at a concrete candidate and store. -/
theorem C1_change_status_audited_witness :
    ∃ db' notes,
      update_candidate_status 7 "interview" wUser (some "token") wDB =
        .ok ({ wCand with status := "interview" }, db', notes) ∧
      db'.activities = wDB.activities ++
        [⟨wCand.id, "status_change",
          "Статус изменен: " ++ wCand.status ++ " -> " ++ "interview"⟩] ∧
      db'.candidates.find? (fun c => c.id == 7) =
        some { wCand with status := "interview" } ∧
      containsStr ("Статус изменен: " ++ wCand.status ++ " -> " ++ "interview")
        wCand.status ∧
      containsStr ("Статус изменен: " ++ wCand.status ++ " -> " ++ "interview")
        "interview" :=
  C1_change_status_audited wDB wUser 7 "interview" (some "token") wCand
    (by decide) (by decide) (by decide)

/-- Claim C5: `update_candidate_status` with the candidate's current status is
a strict no-op that still succeeds and still returns the current state: the
store (hence the activity log) is unchanged and no notification is sent. -/
theorem C5_change_status_noop (db : DB) (cu : User) (cid : Nat)
    (tok : Option String) (cand : Candidate)
    (hfind : db.candidates.find? (fun c => c.id == cid) = some cand)
    (hcomp : cand.company_id = cu.company_id) :
    update_candidate_status cid cand.status cu tok db = .ok (cand, db, []) := by
  have hacc : check_company_access (db.candidates.find? (fun c => c.id == cid))
      (fun c => c.company_id) cu "Кандидат" = .ok cand := by
    rw [hfind]; simp [check_company_access, hcomp]
  unfold update_candidate_status
  rw [hacc]
  simp only [bind, Except.bind]
  simp

/-- Witness for C5 at a concrete candidate and store. -/
theorem C5_change_status_noop_witness :
    update_candidate_status 7 wCand.status wUser (some "token") wDB =
      .ok (wCand, wDB, []) :=
  C5_change_status_noop wDB wUser 7 (some "token") wCand (by decide) (by decide)

/-- Claim C4 as stated is false: the tenant access check reports a missing
entity as 404 NotFound but a foreign-owned entity as 403 Forbidden, so the
two failures are distinguishable.  Concrete refutation: for a candidate of
company 2 probed by a user of company 1, the error is 403, not the 404
produced for an absent candidate. -/
theorem C4_counterexample :
    check_company_access (some wCand2) (fun c => c.company_id) wUser "Кандидат" =
      .error ⟨403, "Нет доступа к этому объекту"⟩ ∧
    check_company_access (none : Option Candidate) (fun c => c.company_id)
      wUser "Кандидат" = .error ⟨404, "Кандидат не найден"⟩ ∧
    (⟨403, "Нет доступа к этому объекту"⟩ : HTTPError) ≠
      ⟨404, "Кандидат не найден"⟩ := by
  refine ⟨rfl, rfl, by decide⟩

/-- Claim C4 amended: a tenant-owned entity lookup reports NotFound (404)
when the entity is absent, but Forbidden (403) when the entity exists and
belongs to a different company — the two failures are distinguishable, so
existence is leaked across tenants. -/
theorem C4_access_check_distinguishes {α : Type} (obj : Option α)
    (cid : α → Nat) (cu : User) (nm : String) :
    (obj = none →
      check_company_access obj cid cu nm = .error ⟨404, nm ++ " не найден"⟩) ∧
    (∀ o, obj = some o → cid o ≠ cu.company_id →
      check_company_access obj cid cu nm =
        .error ⟨403, "Нет доступа к этому объекту"⟩) ∧
    (∀ o, obj = some o → cid o = cu.company_id →
      check_company_access obj cid cu nm = .ok o) ∧
    (∀ o, obj = some o → cid o ≠ cu.company_id →
      check_company_access obj cid cu nm ≠
        check_company_access (none : Option α) cid cu nm) := by
  refine ⟨?_, ?_, ?_, ?_⟩
  · intro h; rw [h]; rfl
  · intro o h hne; rw [h]; simp [check_company_access, hne]
  · intro o h heq; rw [h]; simp [check_company_access, heq]
  · intro o h hne; rw [h]; simp [check_company_access, hne]

/-- Witness for the amended C4 at a concrete foreign-owned candidate. -/
theorem C4_access_check_distinguishes_witness :
    check_company_access (some wCand2) (fun c => c.company_id) wUser "Кандидат" =
      .error ⟨403, "Нет доступа к этому объекту"⟩ ∧
    check_company_access (some wCand2) (fun c => c.company_id) wUser "Кандидат" ≠
      check_company_access (none : Option Candidate) (fun c => c.company_id)
        wUser "Кандидат" := by
  obtain ⟨-, h2, -, h4⟩ := C4_access_check_distinguishes (some wCand2)
    (fun c => c.company_id) wUser "Кандидат"
  exact ⟨h2 wCand2 rfl (by decide), h4 wCand2 rfl (by decide)⟩

/-- Claim C2: `delete_pipeline_stage` on a stage found in the caller's
company fails with the invalid-operation error when the stage is final;
on a non-final stage it fails with the conflict error when at least one
candidate of the company holds the stage's key, and succeeds — removing
the stage — when no candidate of the company holds that key. -/
theorem C2_delete_stage_guarded (db : DB) (cu : User) (sid : Nat)
    (stage : PipelineStage)
    (hfind : db.stages.find? (fun s =>
      s.id == sid && s.company_id == cu.company_id) = some stage) :
    (stage.is_final = true →
      delete_pipeline_stage sid cu db =
        .error ⟨400, "Нельзя удалить финальный этап"⟩) ∧
    (stage.is_final = false →
      (0 < (db.candidates.filter (fun c =>
          c.company_id == cu.company_id && c.status == stage.key)).length →
        delete_pipeline_stage sid cu db =
          .error ⟨400, "Нельзя удалить: на этапе " ++
            toString (db.candidates.filter (fun c =>
              c.company_id == cu.company_id && c.status == stage.key)).length
            ++ " кандидат(ов)"⟩) ∧
      ((db.candidates.filter (fun c =>
          c.company_id == cu.company_id && c.status == stage.key)).length = 0 →
        delete_pipeline_stage sid cu db =
          .ok { db with
            stages := removeFirstStage sid cu.company_id db.stages } ∧
        ∃ pre post, db.stages = pre ++ stage :: post ∧
          removeFirstStage sid cu.company_id db.stages = pre ++ post)) := by
  refine ⟨?_, fun hnf => ⟨?_, ?_⟩⟩
  · intro hfin
    unfold delete_pipeline_stage
    rw [hfind]
    simp [hfin]
  · intro hpos
    unfold delete_pipeline_stage
    rw [hfind]
    simp only [hnf, Bool.false_eq_true, if_false]
    rw [if_pos hpos]
  · intro hzero
    refine ⟨?_, removeFirstStage_split sid cu.company_id db.stages stage hfind⟩
    unfold delete_pipeline_stage
    rw [hfind]
    simp only [hnf, Bool.false_eq_true, if_false]
    rw [if_neg (by omega)]

/-- Witness for C2 at the provisioned default stages: deleting the final
stage "hired" fails with the invalid-operation error, while deleting
"offer" (non-final, no candidate holds it) removes it. -/
theorem C2_delete_stage_guarded_witness :
    delete_pipeline_stage 14 wUser wDBdef =
      .error ⟨400, "Нельзя удалить финальный этап"⟩ ∧
    delete_pipeline_stage 13 wUser wDBdef =
      .ok { wDBdef with
        stages := removeFirstStage 13 wUser.company_id wDBdef.stages } ∧
    ∃ pre post, wDBdef.stages =
        pre ++ (⟨13, 1, "offer", "Оффер", "#F97316", 3, true, false⟩ :
          PipelineStage) :: post ∧
      removeFirstStage 13 wUser.company_id wDBdef.stages = pre ++ post :=
  ⟨(C2_delete_stage_guarded wDBdef wUser 14
      ⟨14, 1, "hired", "Нанят", "#10B981", 4, true, true⟩ (by decide)).1 rfl,
    ((C2_delete_stage_guarded wDBdef wUser 13
      ⟨13, 1, "offer", "Оффер", "#F97316", 3, true, false⟩ (by decide)).2
      rfl).2 (by decide)⟩

/-- Claim C3 as stated is false: the new stage's order is
(max non-final order) + 1, but a final stage need not keep a strictly
higher order.  Concrete refutation: with the six default stages, a freshly
created stage receives order 4, equal to — not strictly below — the order
of the final stage "hired". -/
theorem C3_counterexample :
    (create_pipeline_stage ⟨"test", "Тест", "#000000", false⟩ wUser 100
        wDBdef).map (fun p => p.1.order) = .ok 4 ∧
    wHired ∈ wDBdef.stages ∧ wHired.is_final = true ∧ ¬ (4 < wHired.order) := by
  refine ⟨rfl, by decide, by decide, by decide⟩

/-- Claim C3 amended: when the key is fresh and the company has at least one
non-final stage (maximal order `m`), the created stage has order `m + 1`; a
final stage keeps an order at least as large as (not necessarily strictly
larger than) the new stage's, provided its order was at least `m + 1`. -/
theorem C3_create_stage_order (db : DB) (cu : User)
    (data : PipelineStageCreate) (newId m : Nat)
    (hfresh : db.stages.find? (fun s =>
      s.company_id == cu.company_id && s.key == data.key) = none)
    (hmax : listMax? ((db.stages.filter (fun s =>
        s.company_id == cu.company_id && s.is_final == false)).map
        (fun s => s.order)) = some m) :
    ∃ st, create_pipeline_stage data cu newId db =
        .ok (st, { db with stages := db.stages ++ [st] }) ∧
      st.order = m + 1 ∧ st.key = data.key ∧ st.is_final = data.is_final ∧
      ∀ f ∈ db.stages, f.company_id = cu.company_id → f.is_final = true →
        m + 1 ≤ f.order → st.order ≤ f.order := by
  unfold create_pipeline_stage
  rw [hfresh]
  simp only [Option.isSome_none, Bool.false_eq_true, if_false, hmax]
  exact ⟨_, rfl, rfl, rfl, rfl, fun f _ _ _ h => h⟩

/-- Witness for the amended C3 at the default stages (max non-final order
3, fresh key "test"). -/
theorem C3_create_stage_order_witness :
    ∃ st, create_pipeline_stage ⟨"test", "Тест", "#000000", false⟩ wUser 100
        wDBdef = .ok (st, { wDBdef with stages := wDBdef.stages ++ [st] }) ∧
      st.order = 3 + 1 ∧ st.key = "test" ∧ st.is_final = false ∧
      ∀ f ∈ wDBdef.stages, f.company_id = wUser.company_id →
        f.is_final = true → 3 + 1 ≤ f.order → st.order ≤ f.order :=
  C3_create_stage_order wDBdef wUser ⟨"test", "Тест", "#000000", false⟩ 100 3
    (by decide) (by decide)

/-- Claim C6: for a company with no pipeline stages, `get_pipeline_stages`
provisions and returns exactly six stages with keys
[new, screening, interview, offer, hired, rejected] in ascending order
0..5, with exactly hired and rejected final. -/
theorem C6_default_provisioning (db : DB) (cu : User) (baseId : Nat)
    (hempty : db.stages.filter (fun s => s.company_id == cu.company_id) = []) :
    (get_pipeline_stages cu baseId db).1.map (fun s => s.key) =
      ["new", "screening", "interview", "offer", "hired", "rejected"] ∧
    (get_pipeline_stages cu baseId db).1.map (fun s => s.order) =
      [0, 1, 2, 3, 4, 5] ∧
    (get_pipeline_stages cu baseId db).1.map (fun s => s.is_final) =
      [false, false, false, false, true, true] ∧
    (get_pipeline_stages cu baseId db).1.length = 6 ∧
    (get_pipeline_stages cu baseId db).2 =
      { db with stages :=
          db.stages ++ default_pipeline_stages cu.company_id baseId } := by
  unfold get_pipeline_stages
  rw [hempty]
  simp [sortByOrder, create_default_pipeline_stages, default_pipeline_stages]

/-- Witness for C6 at a concrete store with no stages. -/
theorem C6_default_provisioning_witness :
    (get_pipeline_stages wUser 10 wDB).1.map (fun s => s.key) =
      ["new", "screening", "interview", "offer", "hired", "rejected"] ∧
    (get_pipeline_stages wUser 10 wDB).1.map (fun s => s.order) =
      [0, 1, 2, 3, 4, 5] ∧
    (get_pipeline_stages wUser 10 wDB).1.map (fun s => s.is_final) =
      [false, false, false, false, true, true] ∧
    (get_pipeline_stages wUser 10 wDB).1.length = 6 ∧
    (get_pipeline_stages wUser 10 wDB).2 =
      { wDB with stages :=
          wDB.stages ++ default_pipeline_stages wUser.company_id 10 } :=
  C6_default_provisioning wDB wUser 10 (by decide)

/-- Claim C7: when the AI provider raises (any exception, including
malformed JSON) or returns a payload missing the expected keys, the
candidate is still created and persisted with a fallback low score and a
summary indicating the analysis failure, one `apply` activity is recorded,
and no exception reaches the caller. -/
theorem C7_apply_absorbs_ai_failure (db : DB) (app : CandidateApply)
    (vac : Vacancy) (newId : Nat) (e : String) (d : AIResult)
    (hvac : db.vacancies.find? (fun v => v.id == app.vacancy_id) = some vac) :
    (∃ cand db', apply_candidate app (.error e) newId db = .ok (cand, db') ∧
      cand.ai_score = 10 ∧ cand.ai_summary = "Ошибка AI анализа: " ++ e ∧
      containsStr cand.ai_summary "Ошибка" ∧ cand.status = "new" ∧
      db'.candidates = db.candidates ++ [cand] ∧
      db'.activities = db.activities ++
        [⟨newId, "apply", "Кандидат откликнулся через Telegram"⟩]) ∧
    (d.score = none → d.summary = none →
      ∃ cand db', apply_candidate app (.ok d) newId db = .ok (cand, db') ∧
        cand.ai_score = 0 ∧ cand.ai_summary = "Ошибка анализа" ∧
        containsStr cand.ai_summary "Ошибка" ∧ cand.status = "new" ∧
        db'.candidates = db.candidates ++ [cand] ∧
        db'.activities = db.activities ++
          [⟨newId, "apply", "Кандидат откликнулся через Telegram"⟩]) := by
  constructor
  · refine ⟨⟨newId, app.first_name, app.last_name, "tg_user@example.com",
        none, some app.username, app.resume_text, 10,
        "Ошибка AI анализа: " ++ e, "new", "telegram", app.vacancy_id,
        vac.company_id⟩,
      { db with
        candidates := db.candidates ++ [⟨newId, app.first_name,
          app.last_name, "tg_user@example.com", none, some app.username,
          app.resume_text, 10, "Ошибка AI анализа: " ++ e, "new", "telegram",
          app.vacancy_id, vac.company_id⟩]
        activities := db.activities ++
          [⟨newId, "apply", "Кандидат откликнулся через Telegram"⟩] },
      ?_, rfl, rfl, ?_, rfl, rfl, rfl⟩
    · unfold apply_candidate
      rw [hvac]
      rfl
    · refine ⟨"", " AI анализа: " ++ e, ?_⟩
      rw [← String.append_assoc]
      have h1 : ("" ++ "Ошибка") ++ " AI анализа: " = "Ошибка AI анализа: " := by
        decide
      rw [h1]
  · intro hs hsum
    refine ⟨⟨newId, app.first_name, app.last_name, "tg_user@example.com",
        none, some app.username, app.resume_text, 0, "Ошибка анализа",
        "new", "telegram", app.vacancy_id, vac.company_id⟩,
      { db with
        candidates := db.candidates ++ [⟨newId, app.first_name,
          app.last_name, "tg_user@example.com", none, some app.username,
          app.resume_text, 0, "Ошибка анализа", "new", "telegram",
          app.vacancy_id, vac.company_id⟩]
        activities := db.activities ++
          [⟨newId, "apply", "Кандидат откликнулся через Telegram"⟩] },
      ?_, rfl, rfl, ?_, rfl, rfl, rfl⟩
    · unfold apply_candidate
      rw [hvac]
      simp [analyze_resume_with_gpt, hs, hsum]
    · refine ⟨"", " анализа", ?_⟩
      show "Ошибка анализа" = "" ++ "Ошибка" ++ " анализа"
      decide

/-- Witness for C7 at a concrete store and vacancy. -/
theorem C7_apply_absorbs_ai_failure_witness :
    (∃ cand db', apply_candidate ⟨3, "Ф", "И", "un", "cv"⟩ (.error "boom") 99
        wDB = .ok (cand, db') ∧
      cand.ai_score = 10 ∧ cand.ai_summary = "Ошибка AI анализа: " ++ "boom" ∧
      containsStr cand.ai_summary "Ошибка" ∧ cand.status = "new" ∧
      db'.candidates = wDB.candidates ++ [cand] ∧
      db'.activities = wDB.activities ++
        [⟨99, "apply", "Кандидат откликнулся через Telegram"⟩]) ∧
    ((⟨none, none⟩ : AIResult).score = none →
      (⟨none, none⟩ : AIResult).summary = none →
      ∃ cand db', apply_candidate ⟨3, "Ф", "И", "un", "cv"⟩
          (.ok ⟨none, none⟩) 99 wDB = .ok (cand, db') ∧
        cand.ai_score = 0 ∧ cand.ai_summary = "Ошибка анализа" ∧
        containsStr cand.ai_summary "Ошибка" ∧ cand.status = "new" ∧
        db'.candidates = wDB.candidates ++ [cand] ∧
        db'.activities = wDB.activities ++
          [⟨99, "apply", "Кандидат откликнулся через Telegram"⟩]) :=
  C7_apply_absorbs_ai_failure wDB ⟨3, "Ф", "И", "un", "cv"⟩ wVac 99 "boom"
    ⟨none, none⟩ (by decide)

/-- Claim C10: when the registration's company name matches an existing
company that already has a user, `register` adds the registrant to that
company as an active recruiter — no invitation or approval step exists in
the flow; a new company (with the registrant as admin) is created only
when no company of that name exists. -/
theorem C10_register_by_company_name (data : UserRegister)
    (hashf : String → String) (ncid nuid : Nat) (db : DB)
    (hemail : db.users.find? (fun u => u.email == data.email) = none) :
    (∀ c, db.companies.find? (fun c => c.name == data.company_name) = some c →
      0 < (db.users.filter (fun u => u.company_id == c.id)).length →
      ∃ u, register data hashf ncid nuid db =
          .ok (u, c, { db with users := db.users ++ [u] }) ∧
        u.role = "recruiter" ∧ u.company_id = c.id ∧ u.is_active = true ∧
        u.email = data.email) ∧
    (db.companies.find? (fun c => c.name == data.company_name) = none →
      (db.users.filter (fun u => u.company_id == ncid)).length = 0 →
      ∃ u, register data hashf ncid nuid db =
          .ok (u, ⟨ncid, data.company_name⟩,
            { db with
                companies := db.companies ++ [⟨ncid, data.company_name⟩]
                users := db.users ++ [u] }) ∧
        u.role = "admin" ∧ u.company_id = ncid ∧ u.is_active = true) := by
  constructor
  · intro c hc hpos
    have hcnt : ((db.users.filter (fun u => u.company_id == c.id)).length == 0)
        = false := by
      simp only [beq_eq_false_iff_ne, ne_eq]
      omega
    refine ⟨⟨nuid, data.email, hashf data.password, data.first_name,
      data.last_name, "recruiter", true, c.id⟩, ?_, rfl, rfl, rfl, rfl⟩
    unfold register
    rw [hemail]
    simp only [Option.isSome_none, Bool.false_eq_true, if_false, hc,
      Option.getD_some, hcnt]
  · intro hc hz
    have hcnt : ((db.users.filter (fun u => u.company_id == ncid)).length == 0)
        = true := by simpa using hz
    refine ⟨⟨nuid, data.email, hashf data.password, data.first_name,
      data.last_name, "admin", true, ncid⟩, ?_, rfl, rfl, rfl⟩
    unfold register
    rw [hemail]
    simp only [Option.isSome_none, Bool.false_eq_true, if_false, hc,
      Option.getD_none, hcnt]
    rfl

/-- Witness for C10: a second registrant joining "Acme" becomes a
recruiter; registering under a fresh name "Beta" creates the company with
the registrant as admin. -/
theorem C10_register_by_company_name_witness :
    (∀ c, wDB.companies.find?
        (fun c => c.name == ("Acme" : String)) = some c →
      0 < (wDB.users.filter (fun u => u.company_id == c.id)).length →
      ∃ u, register ⟨"b@x.io", "pw", "Ф", "И", "Acme"⟩ (fun s => s) 50 51 wDB =
          .ok (u, c, { wDB with users := wDB.users ++ [u] }) ∧
        u.role = "recruiter" ∧ u.company_id = c.id ∧ u.is_active = true ∧
        u.email = "b@x.io") ∧
    (0 < (wDB.users.filter (fun u => u.company_id == (1 : Nat))).length) :=
  ⟨((C10_register_by_company_name ⟨"b@x.io", "pw", "Ф", "И", "Acme"⟩
      (fun s => s) 50 51 wDB (by decide)).1), by decide⟩

theorem replaceFuel_no_occur (pat repl : List Char) :
    ∀ (fuel : Nat) (s : List Char), occursIn pat s = false →
      replaceFuel pat repl fuel s = s := by
  intro fuel
  induction fuel with
  | zero => intro s _; rfl
  | succ fuel ih =>
    intro s h
    match s with
    | [] => rfl
    | c :: rest =>
      simp only [occursIn, Bool.or_eq_false_iff] at h
      simp only [replaceFuel, h.1, Bool.false_eq_true, if_false]
      rw [ih rest h.2]

theorem pyReplace_no_occur (s pat repl : String)
    (h : occursIn pat.data s.data = false) : pyReplace s pat repl = s := by
  unfold pyReplace
  cases hp : pat.data with
  | nil => rfl
  | cons p0 ps =>
    rw [hp] at h
    rw [replaceFuel_no_occur (p0 :: ps) repl.data s.data.length s.data h]

/-- Claim C9: `preview_email_template` renders a found template by literal
substring substitution of the four `\x7bkey\x7d` placeholders into subject
and body, returns the store unchanged (nothing is persisted), and any
string free of the four placeholders — in particular one holding only
unresolved placeholders — comes back verbatim without error. -/
theorem C9_preview_renders_without_persisting (tid : Nat) (cu : User)
    (company : Company) (db : DB) (t : EmailTemplate)
    (hfind : db.templates.find? (fun tp =>
      tp.id == tid && tp.company_id == cu.company_id) = some t) :
    preview_email_template tid cu company db =
      .ok ({ subject :=
              substitute_variables (preview_test_data company.name) t.subject
             body :=
              substitute_variables (preview_test_data company.name) t.body },
        db) ∧
    (∀ s : String,
      occursIn "\x7bfirst_name\x7d".data s.data = false →
      occursIn "\x7blast_name\x7d".data s.data = false →
      occursIn "\x7bvacancy_title\x7d".data s.data = false →
      occursIn "\x7bcompany_name\x7d".data s.data = false →
      substitute_variables (preview_test_data company.name) s = s) := by
  constructor
  · unfold preview_email_template
    rw [hfind]
  · intro s h1 h2 h3 h4
    show pyReplace (pyReplace (pyReplace (pyReplace s
        ("\x7b" ++ "first_name" ++ "\x7d") "Иван")
        ("\x7b" ++ "last_name" ++ "\x7d") "Петров")
        ("\x7b" ++ "vacancy_title" ++ "\x7d") "Python Developer")
        ("\x7b" ++ "company_name" ++ "\x7d") company.name = s
    have e1 : ("\x7b" ++ "first_name" ++ "\x7d" : String) =
        "\x7bfirst_name\x7d" := by decide
    have e2 : ("\x7b" ++ "last_name" ++ "\x7d" : String) =
        "\x7blast_name\x7d" := by decide
    have e3 : ("\x7b" ++ "vacancy_title" ++ "\x7d" : String) =
        "\x7bvacancy_title\x7d" := by decide
    have e4 : ("\x7b" ++ "company_name" ++ "\x7d" : String) =
        "\x7bcompany_name\x7d" := by decide
    rw [e1, e2, e3, e4, pyReplace_no_occur s _ _ h1,
      pyReplace_no_occur s _ _ h2, pyReplace_no_occur s _ _ h3,
      pyReplace_no_occur s _ _ h4]

/-- Witness for C9: the concrete template's subject renders with the known
placeholder substituted and the unknown one left verbatim, and the store
comes back unchanged. -/
theorem C9_preview_renders_without_persisting_witness :
    preview_email_template 21 wUser ⟨1, "Acme"⟩ wDB =
      .ok ({ subject :=
              substitute_variables (preview_test_data "Acme")
                wTemplate.subject
             body :=
              substitute_variables (preview_test_data "Acme")
                wTemplate.body },
        wDB) ∧
    substitute_variables (preview_test_data "Acme")
      "\x7bwholly_unknown\x7d" = "\x7bwholly_unknown\x7d" ∧
    substitute_variables (preview_test_data "Acme") wTemplate.subject =
      "Тема: Иван \x7bunknown\x7d" :=
  ⟨(C9_preview_renders_without_persisting 21 wUser ⟨1, "Acme"⟩ wDB wTemplate
      (by decide)).1,
    (C9_preview_renders_without_persisting 21 wUser ⟨1, "Acme"⟩ wDB wTemplate
      (by decide)).2 "\x7bwholly_unknown\x7d"
      (by decide) (by decide) (by decide) (by decide),
    by decide⟩

theorem listEq_of_get? {α : Type} :
    ∀ (l₁ l₂ : List α), (∀ n, l₁.get? n = l₂.get? n) → l₁ = l₂ := by
  intro l₁
  induction l₁ with
  | nil =>
    intro l₂ h
    cases l₂ with
    | nil => rfl
    | cons b t => exact absurd (h 0) (by simp [List.get?])
  | cons a t ih =>
    intro l₂ h
    cases l₂ with
    | nil => exact absurd (h 0) (by simp [List.get?])
    | cons b t' =>
      have h0 : a = b := by simpa [List.get?] using h 0
      have ht : t = t' := ih t' (fun n => by simpa [List.get?] using h (n + 1))
      rw [h0, ht]

theorem updateFirstStageOrder_map_key (sid c v : Nat) :
    ∀ (l : List PipelineStage),
      (updateFirstStageOrder sid c v l).map stageKey = l.map stageKey := by
  intro l
  induction l with
  | nil => rfl
  | cons s rest ih =>
    cases hb : (s.id == sid && s.company_id == c) with
    | true => simp [updateFirstStageOrder, hb, stageKey]
    | false => simp [updateFirstStageOrder, hb, stageKey, ih]

theorem updateFirstStageOrder_get? (sid c v : Nat) :
    ∀ (l : List PipelineStage) (n : Nat),
      (updateFirstStageOrder sid c v l).get? n =
        if firstPos sid c (l.map stageKey) = some n then
          (l.get? n).map (setOrd v)
        else l.get? n := by
  intro l
  induction l with
  | nil => intro n; simp [updateFirstStageOrder, firstPos]
  | cons s rest ih =>
    intro n
    cases hb : (s.id == sid && s.company_id == c) with
    | true =>
      have hk : stageKey s = (sid, c) := by
        simp only [Bool.and_eq_true, beq_iff_eq] at hb
        simp [stageKey, hb.1, hb.2]
      cases n with
      | zero =>
        simp [updateFirstStageOrder, hb, firstPos, hk, List.get?, setOrd]
      | succ n =>
        simp [updateFirstStageOrder, hb, firstPos, hk, List.get?]
    | false =>
      have hk : stageKey s ≠ (sid, c) := by
        simp only [Bool.and_eq_false_iff, beq_eq_false_iff_ne, ne_eq] at hb
        intro he
        have h1 : s.id = sid := congrArg Prod.fst he
        have h2 : s.company_id = c := congrArg Prod.snd he
        rcases hb with hb | hb
        · exact hb h1
        · exact hb h2
      cases n with
      | zero =>
        simp only [updateFirstStageOrder, hb, Bool.false_eq_true, if_false,
          List.map_cons, firstPos, hk, List.get?]
        cases hfp : firstPos sid c (rest.map stageKey) <;> simp
      | succ n =>
        simp only [updateFirstStageOrder, hb, Bool.false_eq_true, if_false,
          List.map_cons, firstPos, hk, List.get?]
        rw [ih n]
        cases hfp : firstPos sid c (rest.map stageKey) with
        | none => simp
        | some m =>
          by_cases hm : m = n
          · simp [hm]
          · have hmn : ¬ (m + 1 = n + 1) := by omega
            simp [hm, hmn]

theorem reorderLoop_map_key (c : Nat) :
    ∀ (ids : List Nat) (idx : Nat) (l : List PipelineStage),
      (reorderLoop c idx ids l).map stageKey = l.map stageKey := by
  intro ids
  induction ids with
  | nil => intro idx l; rfl
  | cons sid rest ih =>
    intro idx l
    show (reorderLoop c (idx + 1) rest
      (updateFirstStageOrder sid c idx l)).map stageKey = _
    rw [ih (idx + 1) (updateFirstStageOrder sid c idx l),
      updateFirstStageOrder_map_key]

theorem lastWrite_cons (c idx sid : Nat) (rest : List Nat)
    (shape : List (Nat × Nat)) (n : Nat) :
    lastWrite c idx (sid :: rest) shape n =
      match lastWrite c (idx + 1) rest shape n with
      | some v => some v
      | none => if firstPos sid c shape = some n then some idx else none :=
  rfl

theorem reorderLoop_get? (c : Nat) :
    ∀ (ids : List Nat) (idx : Nat) (l : List PipelineStage) (n : Nat),
      (reorderLoop c idx ids l).get? n =
        match lastWrite c idx ids (l.map stageKey) n with
        | some v => (l.get? n).map (setOrd v)
        | none => l.get? n := by
  intro ids
  induction ids with
  | nil => intro idx l n; rfl
  | cons sid rest ih =>
    intro idx l n
    show (reorderLoop c (idx + 1) rest
      (updateFirstStageOrder sid c idx l)).get? n = _
    rw [ih (idx + 1) (updateFirstStageOrder sid c idx l) n,
      updateFirstStageOrder_map_key, updateFirstStageOrder_get?,
      lastWrite_cons]
    cases hlw : lastWrite c (idx + 1) rest (l.map stageKey) n with
    | some v =>
      simp only
      by_cases hfp : firstPos sid c (l.map stageKey) = some n
      · simp only [hfp, if_true]
        cases l.get? n <;> simp [setOrd]
      · simp only [hfp, if_false]
    | none =>
      simp only
      by_cases hfp : firstPos sid c (l.map stageKey) = some n
      · simp only [hfp, if_true]
      · simp only [hfp, if_false]

theorem reorderLoop_idem (c : Nat) (ids : List Nat) (l : List PipelineStage) :
    reorderLoop c 0 ids (reorderLoop c 0 ids l) = reorderLoop c 0 ids l := by
  apply listEq_of_get?
  intro n
  rw [reorderLoop_get? c ids 0 (reorderLoop c 0 ids l) n, reorderLoop_map_key,
    reorderLoop_get? c ids 0 l n]
  cases hlw : lastWrite c 0 ids (l.map stageKey) n with
  | some v =>
    simp only
    cases l.get? n <;> simp [setOrd]
  | none => simp only

theorem firstPos_get? (sid c : Nat) :
    ∀ (shape : List (Nat × Nat)) (n : Nat),
      firstPos sid c shape = some n → shape.get? n = some (sid, c) := by
  intro shape
  induction shape with
  | nil => intro n h; simp [firstPos] at h
  | cons k rest ih =>
    intro n h
    by_cases hk : k = (sid, c)
    · simp only [firstPos, hk, if_true, Option.some_inj] at h
      subst h
      simp [List.get?, hk]
    · simp only [firstPos, hk, if_false] at h
      cases hfp : firstPos sid c rest with
      | none => rw [hfp] at h; simp at h
      | some m =>
        rw [hfp] at h
        have hmn : m + 1 = n := by simpa using h
        subst hmn
        simpa [List.get?] using ih m hfp

theorem firstPos_of_nodup (c : Nat) :
    ∀ (l : List PipelineStage) (n : Nat) (s : PipelineStage),
      l.get? n = some s → s.company_id = c →
      (l.map (fun x => x.id)).Nodup →
      firstPos s.id c (l.map stageKey) = some n := by
  intro l
  induction l with
  | nil => intro n s h; simp [List.get?] at h
  | cons x rest ih =>
    intro n s hget hc hnd
    rw [List.map_cons, List.nodup_cons] at hnd
    cases n with
    | zero =>
      obtain rfl : x = s := by simpa [List.get?] using hget
      simp [firstPos, stageKey, hc]
    | succ n =>
      have hget' : rest.get? n = some s := by simpa [List.get?] using hget
      have hmem : s.id ∈ rest.map (fun x => x.id) :=
        List.mem_map.mpr ⟨s, List.get?_mem hget', rfl⟩
      have hx : stageKey x ≠ (s.id, c) := by
        intro he
        have hxid : x.id = s.id := congrArg Prod.fst he
        exact hnd.1 (hxid ▸ hmem)
      simp only [List.map_cons, firstPos, hx, if_false, List.get?]
      rw [ih n s hget' hc hnd.2]
      rfl

theorem lastWrite_none (c : Nat) :
    ∀ (ids : List Nat) (idx : Nat) (shape : List (Nat × Nat)) (n : Nat),
      (∀ sid ∈ ids, firstPos sid c shape ≠ some n) →
      lastWrite c idx ids shape n = none := by
  intro ids
  induction ids with
  | nil => intro idx shape n _; rfl
  | cons sid rest ih =>
    intro idx shape n h
    rw [lastWrite_cons,
      ih (idx + 1) shape n (fun s hs => h s (List.mem_cons_of_mem _ hs))]
    simp [h sid (List.mem_cons_self _ _)]

theorem lastWrite_some (c : Nat) :
    ∀ (ids : List Nat) (idx i sid₀ : Nat) (shape : List (Nat × Nat)) (n : Nat),
      ids.get? i = some sid₀ → ids.Nodup →
      firstPos sid₀ c shape = some n →
      (∀ sid, firstPos sid c shape = some n → sid = sid₀) →
      lastWrite c idx ids shape n = some (idx + i) := by
  intro ids
  induction ids with
  | nil => intro idx i sid₀ shape n h; simp [List.get?] at h
  | cons sid rest ih =>
    intro idx i sid₀ shape n hget hnd hfp huniq
    rw [List.nodup_cons] at hnd
    cases i with
    | zero =>
      obtain rfl : sid = sid₀ := by simpa [List.get?] using hget
      have hrest : lastWrite c (idx + 1) rest shape n = none := by
        apply lastWrite_none
        intro sid' hmem heq
        exact hnd.1 ((huniq sid' heq) ▸ hmem)
      rw [lastWrite_cons, hrest]
      simp [hfp]
    | succ i =>
      have hget' : rest.get? i = some sid₀ := by simpa [List.get?] using hget
      have hlw := ih (idx + 1) i sid₀ shape n hget' hnd.2 hfp huniq
      rw [lastWrite_cons, hlw]
      simp only [Option.some_inj]
      omega

/-- Claim C8: `reorder_pipeline_stages` sets each listed stage's `order` to
its index in the request for exactly the ids that belong to the caller's
company — rows with a foreign company or an id not listed are untouched —
and it is idempotent: applying the same ordered id list twice yields the
same store as applying it once.  (The per-row clauses assume the primary
keys and the requested ids are duplicate-free, as database rows are.) -/
theorem C8_reorder_spec_idempotent (cu : User) (db : DB) (ids : List Nat) :
    reorder_pipeline_stages ids cu (reorder_pipeline_stages ids cu db) =
      reorder_pipeline_stages ids cu db ∧
    ((db.stages.map (fun s => s.id)).Nodup → ids.Nodup →
      ∀ n s, db.stages.get? n = some s →
        ((∀ i, ids.get? i = some s.id → s.company_id = cu.company_id →
            (reorder_pipeline_stages ids cu db).stages.get? n =
              some (setOrd i s)) ∧
         (s.company_id ≠ cu.company_id →
            (reorder_pipeline_stages ids cu db).stages.get? n = some s) ∧
         (s.id ∉ ids →
            (reorder_pipeline_stages ids cu db).stages.get? n = some s))) := by
  constructor
  · simp only [reorder_pipeline_stages, reorderLoop_idem]
  · intro hnd hids n s hget
    refine ⟨?_, ?_, ?_⟩
    · intro i hi hcomp
      have hfp := firstPos_of_nodup cu.company_id db.stages n s hget hcomp hnd
      have huniq : ∀ sid, firstPos sid cu.company_id
          (db.stages.map stageKey) = some n → sid = s.id := by
        intro sid h'
        have h1 := firstPos_get? sid cu.company_id _ n h'
        have h2 := firstPos_get? s.id cu.company_id _ n hfp
        rw [h1] at h2
        exact congrArg Prod.fst (Option.some_inj.mp h2)
      have hlw := lastWrite_some cu.company_id ids 0 i s.id _ n hi hids hfp
        huniq
      show (reorderLoop cu.company_id 0 ids db.stages).get? n =
        some (setOrd i s)
      rw [reorderLoop_get?, hlw, hget]
      simp
    · intro hcne
      have hnone : lastWrite cu.company_id 0 ids
          (db.stages.map stageKey) n = none := by
        apply lastWrite_none
        intro sid _ heq
        have h1 := firstPos_get? sid cu.company_id _ n heq
        rw [List.get?_map, hget] at h1
        have h2 : stageKey s = (sid, cu.company_id) := by simpa using h1
        exact hcne (congrArg Prod.snd h2)
      show (reorderLoop cu.company_id 0 ids db.stages).get? n = some s
      rw [reorderLoop_get?, hnone, hget]
    · intro hnotin
      have hnone : lastWrite cu.company_id 0 ids
          (db.stages.map stageKey) n = none := by
        apply lastWrite_none
        intro sid hmem heq
        have h1 := firstPos_get? sid cu.company_id _ n heq
        rw [List.get?_map, hget] at h1
        have h2 : stageKey s = (sid, cu.company_id) := by simpa using h1
        have hid : s.id = sid := congrArg Prod.fst h2
        exact hnotin (hid ▸ hmem)
      show (reorderLoop cu.company_id 0 ids db.stages).get? n = some s
      rw [reorderLoop_get?, hnone, hget]

/-- Witness for C8: reordering the default stages by [12, 10, 11] twice
equals doing it once, and the stage with id 10 (listed at index 1, owned
by the company) ends with order 1. -/
theorem C8_reorder_spec_idempotent_witness :
    reorder_pipeline_stages [12, 10, 11] wUser
        (reorder_pipeline_stages [12, 10, 11] wUser wDBdef) =
      reorder_pipeline_stages [12, 10, 11] wUser wDBdef ∧
    (reorder_pipeline_stages [12, 10, 11] wUser wDBdef).stages.get? 0 =
      some (setOrd 1 ⟨10, 1, "new", "Новый", "#3B82F6", 0, true, false⟩) :=
  ⟨(C8_reorder_spec_idempotent wUser wDBdef [12, 10, 11]).1,
    (((C8_reorder_spec_idempotent wUser wDBdef [12, 10, 11]).2
        (by decide) (by decide) 0
        ⟨10, 1, "new", "Новый", "#3B82F6", 0, true, false⟩ (by decide)).1)
      1 (by decide) rfl⟩

end HRPlatform
